import Mathlib

/-!
Shallow embedding of the Lead-Scraper core (rate limiting, discovery
fan-out, deduplication, contact scoring, orchestration) and proofs of the
specified properties.  Times and scores are modelled as rationals; Python
dictionaries become functions into `Option`; raised exceptions become
`Except` values.
-/

namespace LeadScraper

/-- Embedding of `TokenBucket` (src/utils/rate_limiter.py).  The mutable
Python object becomes an immutable record; methods return the updated
record. -/
structure TokenBucket where
  capacity : ℚ
  tokens : ℚ
  refill_rate : ℚ
  last_refill : ℚ
deriving Repr, DecidableEq

/-- Embedding of `TokenBucket.__init__`: stores the parameters unchecked, starts full,
stamps the construction time (`time.time()` becomes the explicit `now`). -/
def TokenBucket.init (capacity refill_rate now : ℚ) : TokenBucket :=
  { capacity := capacity, tokens := capacity, refill_rate := refill_rate,
    last_refill := now }

/-- Embedding of `TokenBucket.acquire`: refill from elapsed time (clamped at capacity),
stamp `last_refill := now`, then take `n` tokens if available. -/
def TokenBucket.acquire (b : TokenBucket) (now n : ℚ) : Bool × TokenBucket :=
  let elapsed := now - b.last_refill
  let refilled := min b.capacity (b.tokens + elapsed * b.refill_rate)
  if n ≤ refilled then
    (true, { b with tokens := refilled - n, last_refill := now })
  else
    (false, { b with tokens := refilled, last_refill := now })

/-- Version of `acquire` where the caller supplies the elapsed time since the last
refill instead of an absolute clock reading. -/
def TokenBucket.acquireE (b : TokenBucket) (elapsed n : ℚ) : Bool × TokenBucket :=
  b.acquire (b.last_refill + elapsed) n

/-- Embedding of `TokenBucket.wait_for_tokens`: retry `acquire` until it succeeds.  The
unbounded Python loop is modelled on the (finite) list of clock readings at
which the retries happen; an empty list means the loop is still spinning. -/
def TokenBucket.waitRun (b : TokenBucket) (n : ℚ) : List ℚ → Bool × TokenBucket
  | [] => (false, b)
  | now :: rest =>
    let step := b.acquire now n
    if step.1 then (true, step.2) else step.2.waitRun n rest

/-- Modelled from the spec: construction rejecting non-positive `capacity`
or `refill_rate` with a `ConfigurationError` (`none`).  No such check
exists in src/utils/rate_limiter.py; this is the spec's required behaviour,
kept for comparison with `TokenBucket.init`. -/
def TokenBucket.initChecked (capacity refill_rate now : ℚ) : Option TokenBucket :=
  if capacity ≤ 0 ∨ refill_rate ≤ 0 then none
  else some (TokenBucket.init capacity refill_rate now)

/-- A sequence of `acquire` calls, each step giving the elapsed time since
the previous call and the requested token count. -/
def TokenBucket.runAcquires (b : TokenBucket) (steps : List (ℚ × ℚ)) : TokenBucket :=
  steps.foldl (fun st p => (st.acquireE p.1 p.2).2) b

/-- Bucket state invariant: nonnegative parameters and a token count
within `[0, capacity]`. -/
def TokenBucket.Good (b : TokenBucket) : Prop :=
  0 ≤ b.capacity ∧ 0 ≤ b.refill_rate ∧ 0 ≤ b.tokens ∧ b.tokens ≤ b.capacity

theorem acquire_capacity (b : TokenBucket) (now n : ℚ) :
    (b.acquire now n).2.capacity = b.capacity := by
  simp only [TokenBucket.acquire]
  split <;> rfl

theorem acquire_refill_rate (b : TokenBucket) (now n : ℚ) :
    (b.acquire now n).2.refill_rate = b.refill_rate := by
  simp only [TokenBucket.acquire]
  split <;> rfl

theorem acquire_good (b : TokenBucket) (now n : ℚ)
    (hb : b.Good) (he : b.last_refill ≤ now) (hn : 0 ≤ n) :
    (b.acquire now n).2.Good := by
  obtain ⟨hc, hr, ht0, htc⟩ := hb
  have helapsed : (0 : ℚ) ≤ (now - b.last_refill) * b.refill_rate :=
    mul_nonneg (by linarith) hr
  have hrefill0 : 0 ≤ min b.capacity (b.tokens + (now - b.last_refill) * b.refill_rate) :=
    le_min hc (by linarith)
  have hrefillc : min b.capacity (b.tokens + (now - b.last_refill) * b.refill_rate) ≤ b.capacity :=
    min_le_left _ _
  simp only [TokenBucket.acquire, TokenBucket.Good]
  split
  case isTrue h =>
    refine ⟨hc, hr, ?_, ?_⟩
    · show (0 : ℚ) ≤ min b.capacity (b.tokens + (now - b.last_refill) * b.refill_rate) - n
      linarith
    · show min b.capacity (b.tokens + (now - b.last_refill) * b.refill_rate) - n ≤ b.capacity
      linarith
  case isFalse h =>
    refine ⟨hc, hr, ?_, ?_⟩
    · show (0 : ℚ) ≤ min b.capacity (b.tokens + (now - b.last_refill) * b.refill_rate)
      exact hrefill0
    · show min b.capacity (b.tokens + (now - b.last_refill) * b.refill_rate) ≤ b.capacity
      exact hrefillc

theorem acquireE_good (b : TokenBucket) (e n : ℚ)
    (hb : b.Good) (he : 0 ≤ e) (hn : 0 ≤ n) :
    (b.acquireE e n).2.Good :=
  acquire_good b _ n hb (by linarith) hn

theorem runAcquires_good (steps : List (ℚ × ℚ)) (b : TokenBucket)
    (hb : b.Good) (hsteps : ∀ p ∈ steps, 0 ≤ p.1 ∧ 0 ≤ p.2) :
    (b.runAcquires steps).Good := by
  induction steps generalizing b with
  | nil => exact hb
  | cons p rest ih =>
    have hp := hsteps p (List.mem_cons_self p rest)
    exact ih _ (acquireE_good b p.1 p.2 hb hp.1 hp.2)
      (fun q hq => hsteps q (List.mem_cons_of_mem p hq))

theorem acquire_fails_above_capacity (b : TokenBucket) (now n : ℚ)
    (h : b.capacity < n) : (b.acquire now n).1 = false := by
  have hle : min b.capacity (b.tokens + (now - b.last_refill) * b.refill_rate) ≤ b.capacity :=
    min_le_left _ _
  simp only [TokenBucket.acquire]
  split
  case isTrue hcond => exact absurd (lt_of_lt_of_le h (le_trans hcond hle)) (lt_irrefl _)
  case isFalse hcond => rfl

theorem waitRun_fails_above_capacity (times : List ℚ) (b : TokenBucket) (n : ℚ)
    (h : b.capacity < n) : (b.waitRun n times).1 = false := by
  induction times generalizing b with
  | nil => rfl
  | cons now rest ih =>
    have hfail := acquire_fails_above_capacity b now n h
    have hcap : (b.acquire now n).2.capacity < n := by
      rw [acquire_capacity]; exact h
    simp only [TokenBucket.waitRun, hfail]
    simpa using ih _ hcap

/-- Embedding of the `RateLimiter` registry (src/utils/rate_limiter.py):
the `_buckets` dict becomes a function into `Option TokenBucket`. -/
structure RateLimiterState where
  buckets : String → Option TokenBucket

/-- Default bucket lazily installed for an unknown source: capacity 60,
refill rate 60/60 = 1 per second, stamped at creation time. -/
def defaultBucket (now : ℚ) : TokenBucket := TokenBucket.init 60 1 now

/-- Embedding of `RateLimiter.acquire`: install the default bucket if the
source is unknown, then delegate to that source's bucket and store the
bucket's new state under that source's key only. -/
def RateLimiterState.acquire (st : RateLimiterState) (source : String) (now n : ℚ) :
    Bool × RateLimiterState :=
  let b := match st.buckets source with
    | some b => b
    | none => defaultBucket now
  let step := b.acquire now n
  (step.1, ⟨fun s => if s = source then some step.2 else st.buckets s⟩)

/-- Embedding of `RateLimiter.wait_for_tokens`: ensure the source has a
bucket, then retry acquisition on that same source until granted, one
attempt per clock reading in the list. -/
def RateLimiterState.waitForTokens (st : RateLimiterState) (source : String) (n : ℚ) :
    List ℚ → Bool × RateLimiterState
  | [] => (false, st)
  | now :: rest =>
    let step := st.acquire source now n
    if step.1 then (true, step.2) else step.2.waitForTokens source n rest

theorem rl_acquire_frame (st : RateLimiterState) (a b : String)
    (hab : b ≠ a) (now n : ℚ) :
    ((st.acquire a now n).2).buckets b = st.buckets b := by
  simp only [RateLimiterState.acquire]
  exact if_neg hab

theorem rl_waitForTokens_frame (times : List ℚ) (st : RateLimiterState) (a b : String)
    (hab : b ≠ a) (n : ℚ) :
    ((st.waitForTokens a n times).2).buckets b = st.buckets b := by
  induction times generalizing st with
  | nil => rfl
  | cons now rest ih =>
    simp only [RateLimiterState.waitForTokens]
    split
    case isTrue h => exact rl_acquire_frame st a b hab now n
    case isFalse h => rw [ih _]; exact rl_acquire_frame st a b hab now n

/-- C1: every `TokenBucket.acquire` call first sets
`tokens := min capacity (tokens + elapsed * refill_rate)` and
`last_refill := now`; if the refilled tokens cover the request it subtracts
and succeeds, otherwise it fails with no further mutation.  In particular
with capacity 10, refill rate 5/s and 0 tokens, after 1 s a request for 5
succeeds and a request for 6 at that same instant fails. -/
theorem C1_acquire_refill_semantics (b : TokenBucket) (now n : ℚ) :
    ((b.acquire now n).2.last_refill = now
      ∧ (n ≤ min b.capacity (b.tokens + (now - b.last_refill) * b.refill_rate) →
          (b.acquire now n).1 = true
          ∧ (b.acquire now n).2.tokens
              = min b.capacity (b.tokens + (now - b.last_refill) * b.refill_rate) - n)
      ∧ (min b.capacity (b.tokens + (now - b.last_refill) * b.refill_rate) < n →
          (b.acquire now n).1 = false
          ∧ (b.acquire now n).2.tokens
              = min b.capacity (b.tokens + (now - b.last_refill) * b.refill_rate)))
    ∧ ((TokenBucket.mk 10 0 5 0).acquire 1 5).1 = true
    ∧ ((TokenBucket.mk 10 0 5 0).acquire 1 6).1 = false := by
  refine ⟨⟨?_, ?_, ?_⟩, ?_, ?_⟩
  · simp only [TokenBucket.acquire]
    split <;> rfl
  · intro h
    simp only [TokenBucket.acquire]
    rw [if_pos h]
    exact ⟨rfl, rfl⟩
  · intro h
    simp only [TokenBucket.acquire]
    rw [if_neg (not_le.mpr h)]
    exact ⟨rfl, rfl⟩
  · norm_num [TokenBucket.acquire]
  · norm_num [TokenBucket.acquire]

/-- Witness for C1: both refill branches exercised at the claim's concrete
bucket (capacity 10, rate 5, 0 tokens, 1 s elapsed). -/
theorem C1_acquire_refill_semantics_witness :
    ((TokenBucket.mk 10 0 5 0).acquire 1 5).1 = true
    ∧ ((TokenBucket.mk 10 0 5 0).acquire 1 6).1 = false :=
  ⟨((C1_acquire_refill_semantics (TokenBucket.mk 10 0 5 0) 1 5).1.2.1 (by norm_num)).1,
   ((C1_acquire_refill_semantics (TokenBucket.mk 10 0 5 0) 1 6).1.2.2 (by norm_num)).1⟩

/-- C2 counterexample: the claim says construction with non-positive
`capacity` or `refill_rate` is rejected with a configuration error, but
`TokenBucket.__init__` performs no validation: with capacity 0 and refill
rate -1 it happily builds a bucket, while the spec-modelled checked
constructor rejects those parameters. -/
theorem C2_counterexample :
    TokenBucket.initChecked 0 (-1) 0 = none
    ∧ TokenBucket.init 0 (-1) 0
        = { capacity := 0, tokens := 0, refill_rate := -1, last_refill := 0 } := by
  constructor
  · norm_num [TokenBucket.initChecked]
  · rfl

/-- C2 amended: construction stores any `capacity` and `refill_rate`
without validation (no configuration error is ever raised), and a blocking
wait for more tokens than the capacity is not detected either: every
underlying `acquire` returns failure (the refill is clamped at capacity),
so `wait_for_tokens` retries forever instead of failing fast. -/
theorem C2_amended_no_validation (capacity refill_rate now : ℚ) :
    (TokenBucket.init capacity refill_rate now
      = { capacity := capacity, tokens := capacity, refill_rate := refill_rate,
          last_refill := now })
    ∧ (∀ (b : TokenBucket) (t n : ℚ), b.capacity < n → (b.acquire t n).1 = false)
    ∧ (∀ (b : TokenBucket) (n : ℚ) (times : List ℚ), b.capacity < n →
        (b.waitRun n times).1 = false) :=
  ⟨rfl, fun b t n h => acquire_fails_above_capacity b t n h,
   fun b n times h => waitRun_fails_above_capacity times b n h⟩

/-- Witness for C2 amended: a capacity-10 bucket never grants 11 tokens,
single-shot or across a three-retry wait. -/
theorem C2_amended_no_validation_witness :
    (TokenBucket.mk 10 10 5 0).capacity < 11
    ∧ ((TokenBucket.mk 10 10 5 0).acquire 3 11).1 = false
    ∧ ((TokenBucket.mk 10 10 5 0).waitRun 11 [0, 1, 2]).1 = false :=
  ⟨by norm_num,
   (C2_amended_no_validation 10 5 0).2.1 (TokenBucket.mk 10 10 5 0) 3 11 (by norm_num),
   (C2_amended_no_validation 10 5 0).2.2 (TokenBucket.mk 10 10 5 0) 11 [0, 1, 2] (by norm_num)⟩

/-- C7 counterexample: the claim quantifies over *any* token arguments, but
acquiring a negative amount pushes `tokens` above `capacity`: a full
capacity-10 bucket asked for -3 tokens ends with 13 tokens. -/
theorem C7_counterexample :
    ((TokenBucket.init 10 5 0).acquireE 0 (-3)).2.tokens = 13
    ∧ ¬ ((TokenBucket.init 10 5 0).acquireE 0 (-3)).2.tokens
          ≤ ((TokenBucket.init 10 5 0).acquireE 0 (-3)).2.capacity := by
  constructor
  · norm_num [TokenBucket.acquireE, TokenBucket.acquire, TokenBucket.init]
  · norm_num [TokenBucket.acquireE, TokenBucket.acquire, TokenBucket.init]

/-- C7 amended: for every bucket constructed with non-negative capacity and
refill rate, and every finite sequence of `acquire` calls with non-negative
token arguments and non-negative elapsed times, `0 ≤ tokens ≤ capacity`
holds after construction and after every call. -/
theorem C7_amended_tokens_invariant (capacity refill_rate t0 : ℚ)
    (hc : 0 ≤ capacity) (hr : 0 ≤ refill_rate)
    (steps : List (ℚ × ℚ)) (hsteps : ∀ p ∈ steps, 0 ≤ p.1 ∧ 0 ≤ p.2) :
    (0 ≤ (TokenBucket.init capacity refill_rate t0).tokens
      ∧ (TokenBucket.init capacity refill_rate t0).tokens ≤ capacity)
    ∧ ∀ k : ℕ,
        0 ≤ ((TokenBucket.init capacity refill_rate t0).runAcquires (steps.take k)).tokens
        ∧ ((TokenBucket.init capacity refill_rate t0).runAcquires (steps.take k)).tokens
            ≤ ((TokenBucket.init capacity refill_rate t0).runAcquires (steps.take k)).capacity := by
  have hinit : (TokenBucket.init capacity refill_rate t0).Good :=
    ⟨hc, hr, hc, le_refl _⟩
  refine ⟨⟨hc, le_refl _⟩, fun k => ?_⟩
  have hgood := runAcquires_good (steps.take k) _ hinit
    (fun p hp => hsteps p (List.mem_of_mem_take hp))
  exact ⟨hgood.2.2.1, hgood.2.2.2⟩

/-- Witness for C7 amended: capacity 10, rate 5, two calls (5 tokens after
1 s, then 6 tokens immediately), checked after the second call. -/
theorem C7_amended_tokens_invariant_witness :
    ((0 : ℚ) ≤ 10 ∧ (0 : ℚ) ≤ 5 ∧ ∀ p ∈ [((1 : ℚ), (5 : ℚ)), (0, 6)], 0 ≤ p.1 ∧ 0 ≤ p.2)
    ∧ (0 ≤ ((TokenBucket.init 10 5 0).runAcquires ([((1 : ℚ), (5 : ℚ)), (0, 6)].take 2)).tokens
        ∧ ((TokenBucket.init 10 5 0).runAcquires ([((1 : ℚ), (5 : ℚ)), (0, 6)].take 2)).tokens
            ≤ ((TokenBucket.init 10 5 0).runAcquires ([((1 : ℚ), (5 : ℚ)), (0, 6)].take 2)).capacity) :=
  ⟨⟨by norm_num, by norm_num, by norm_num⟩,
   (C7_amended_tokens_invariant 10 5 0 (by norm_num) (by norm_num)
      [((1 : ℚ), (5 : ℚ)), (0, 6)] (by norm_num)).2 2⟩

/-- C8: acquiring (or waiting on) one source reads and writes only that
source's bucket; any other source's bucket state is left untouched, so
exhausting one source never perturbs another. -/
theorem C8_per_source_independence (st : RateLimiterState) (a b : String)
    (hab : b ≠ a) (now n : ℚ) (times : List ℚ) :
    ((st.acquire a now n).2).buckets b = st.buckets b
    ∧ ((st.waitForTokens a n times).2).buckets b = st.buckets b :=
  ⟨rl_acquire_frame st a b hab now n,
   rl_waitForTokens_frame times st a b hab n⟩

/-- Witness for C8: draining "google_places" leaves "yelp"'s (absent)
bucket entry unchanged. -/
theorem C8_per_source_independence_witness :
    ("yelp" ≠ "google_places")
    ∧ (((RateLimiterState.mk fun _ => none).acquire "google_places" 0 1).2).buckets "yelp"
        = (RateLimiterState.mk fun _ => none).buckets "yelp"
    ∧ (((RateLimiterState.mk fun _ => none).waitForTokens "google_places" 1 [0, 1]).2).buckets "yelp"
        = (RateLimiterState.mk fun _ => none).buckets "yelp" :=
  ⟨by decide,
   (C8_per_source_independence (RateLimiterState.mk fun _ => none)
      "google_places" "yelp" (by decide) 0 1 [0, 1]).1,
   (C8_per_source_independence (RateLimiterState.mk fun _ => none)
      "google_places" "yelp" (by decide) 0 1 [0, 1]).2⟩

/-- Embedding of the `BusinessLead` dataclass
(src/discovery/search_engine.py); the discovery timestamp and raw payload
carry no verified content and are omitted. -/
structure BusinessLead where
  name : String
  business_id : String
  source : String
  industry : String
  location : String
  address : Option String := none
  phone : Option String := none
  website : Option String := none
  email : Option String := none
  confidence_score : ℚ := 0
deriving Repr

/-- Python `str.lower`, written on the underlying character list so that it
evaluates inside the kernel. -/
def lowerStr (s : String) : String := ⟨s.data.map Char.toLower⟩

/-- Python `str.strip`: whitespace dropped from both ends of the string. -/
def strip (s : String) : String :=
  ⟨List.reverse (List.dropWhile Char.isWhitespace
      (List.reverse (List.dropWhile Char.isWhitespace s.data)))⟩

/-- Normalized deduplication key from `_deduplicate_leads`:
`lead.name.lower().strip()`. -/
def normKey (l : BusinessLead) : String := strip (lowerStr l.name)

/-- Embedding of the loop body of `SearchEngine._deduplicate_leads`: keep a
lead iff its normalized name was not seen before; the Python `seen_names`
set is the list of keys kept so far. -/
def dedupAux (seen : List String) : List BusinessLead → List BusinessLead
  | [] => []
  | l :: ls =>
    if normKey l ∈ seen then dedupAux seen ls
    else l :: dedupAux (normKey l :: seen) ls

/-- Embedding of `SearchEngine._deduplicate_leads`. -/
def deduplicate_leads (leads : List BusinessLead) : List BusinessLead :=
  dedupAux [] leads

/-- Restatement of the claimed dedup policy in the claim's own words: walk
the input in order and append a record only when its key is not already the
key of a survivor, so the first record per key wins and survivors keep
first-seen order. -/
def dedupFirstSeen (leads : List BusinessLead) : List BusinessLead :=
  leads.foldl
    (fun acc l => if normKey l ∈ acc.map normKey then acc else acc ++ [l]) []

theorem dedupAux_congr (ls : List BusinessLead) (s₁ s₂ : List String)
    (h : ∀ k, k ∈ s₁ ↔ k ∈ s₂) : dedupAux s₁ ls = dedupAux s₂ ls := by
  induction ls generalizing s₁ s₂ with
  | nil => rfl
  | cons l ls ih =>
    simp only [dedupAux]
    by_cases hk : normKey l ∈ s₁
    · rw [if_pos hk, if_pos ((h _).mp hk)]
      exact ih _ _ h
    · rw [if_neg hk, if_neg (fun c => hk ((h _).mpr c))]
      have h' : ∀ k, k ∈ normKey l :: s₁ ↔ k ∈ normKey l :: s₂ := by
        intro k
        simp only [List.mem_cons, h k]
      rw [ih _ _ h']

theorem dedupFirstSeen_go (ls : List BusinessLead) (acc : List BusinessLead) :
    List.foldl
        (fun acc l => if normKey l ∈ acc.map normKey then acc else acc ++ [l]) acc ls
      = acc ++ dedupAux (acc.map normKey) ls := by
  induction ls generalizing acc with
  | nil => simp [dedupAux]
  | cons l ls ih =>
    simp only [List.foldl, dedupAux]
    by_cases hk : normKey l ∈ acc.map normKey
    · rw [if_pos hk, if_pos hk, ih]
    · rw [if_neg hk, if_neg hk, ih]
      have hcongr : dedupAux ((acc ++ [l]).map normKey) ls
          = dedupAux (normKey l :: acc.map normKey) ls := by
        apply dedupAux_congr
        intro k
        simp [List.mem_append, List.mem_cons, or_comm]
      rw [hcongr, List.append_assoc]
      rfl

theorem dedupAux_not_seen (ls : List BusinessLead) (seen : List String) :
    ∀ x ∈ dedupAux seen ls, normKey x ∉ seen := by
  induction ls generalizing seen with
  | nil => intro x hx; cases hx
  | cons l ls ih =>
    intro x hx
    simp only [dedupAux] at hx
    by_cases hk : normKey l ∈ seen
    · rw [if_pos hk] at hx
      exact ih seen x hx
    · rw [if_neg hk] at hx
      rcases List.mem_cons.mp hx with h | h
      · rw [h]; exact hk
      · have hrec := ih (normKey l :: seen) x h
        exact fun c => hrec (List.mem_cons_of_mem _ c)

theorem dedupAux_pairwise (ls : List BusinessLead) (seen : List String) :
    (dedupAux seen ls).Pairwise (fun a b => normKey a ≠ normKey b) := by
  induction ls generalizing seen with
  | nil => exact List.Pairwise.nil
  | cons l ls ih =>
    simp only [dedupAux]
    by_cases hk : normKey l ∈ seen
    · rw [if_pos hk]; exact ih seen
    · rw [if_neg hk]
      refine List.pairwise_cons.mpr ⟨?_, ih _⟩
      intro b hb
      have hnb := dedupAux_not_seen ls (normKey l :: seen) b hb
      exact fun c => hnb (by rw [← c]; exact List.mem_cons_self _ _)

theorem dedupAux_fixed (ls : List BusinessLead) (seen : List String)
    (h1 : ∀ x ∈ ls, normKey x ∉ seen)
    (h2 : ls.Pairwise (fun a b => normKey a ≠ normKey b)) :
    dedupAux seen ls = ls := by
  induction ls generalizing seen with
  | nil => rfl
  | cons l ls ih =>
    simp only [dedupAux]
    rw [if_neg (h1 l (List.mem_cons_self _ _))]
    congr 1
    apply ih
    · intro x hx hc
      rcases List.mem_cons.mp hc with h | h
      · exact (List.pairwise_cons.mp h2).1 x hx h.symm
      · exact h1 x (List.mem_cons_of_mem _ hx) h
    · exact (List.pairwise_cons.mp h2).2

/-- Three discovery records whose names differ only by case and trailing
whitespace, as in the claim's example. -/
def acmeFirst : BusinessLead :=
  { name := "Acme", business_id := "google_places_1001", source := "google_places",
    industry := "services", location := "Test City" }

/-- Second case/whitespace variant of the same name. -/
def acmeSecond : BusinessLead :=
  { name := "ACME ", business_id := "yelp_2002", source := "yelp",
    industry := "services", location := "Test City" }

/-- Third variant, an exact repeat of the first name. -/
def acmeThird : BusinessLead :=
  { name := "Acme", business_id := "directory_3003", source := "yellow_pages",
    industry := "services", location := "Test City" }

/-- C3: deduplication keys each record by its case-folded,
whitespace-trimmed name and keeps exactly the first record per key in
first-seen order, dropping later records without merging; on the
"Acme" / "ACME " / "Acme" example only the first record survives. -/
theorem C3_dedup_first_seen_policy :
    (∀ leads : List BusinessLead, deduplicate_leads leads = dedupFirstSeen leads)
    ∧ deduplicate_leads [acmeFirst, acmeSecond, acmeThird] = [acmeFirst] := by
  constructor
  · intro leads
    unfold deduplicate_leads dedupFirstSeen
    rw [dedupFirstSeen_go]
    rfl
  · rfl

/-- C9: deduplication is idempotent: running it on its own output changes
nothing, because the surviving keys are pairwise distinct. -/
theorem C9_dedup_idempotent (leads : List BusinessLead) :
    deduplicate_leads (deduplicate_leads leads) = deduplicate_leads leads := by
  unfold deduplicate_leads
  apply dedupAux_fixed
  · intro x hx
    exact List.not_mem_nil _
  · exact dedupAux_pairwise leads []

/-- Embedding of the result-combining loop of
`SearchEngine.search_businesses`: each gathered outcome is either a list of
leads or a raised exception (`asyncio.gather(..., return_exceptions=True)`);
lead lists are appended in adapter order, errors are only logged. -/
def combineResults (results : List (Except String (List BusinessLead))) :
    List BusinessLead :=
  results.foldl
    (fun acc r => match r with | .ok ls => acc ++ ls | .error _ => acc) []

/-- Embedding of the tail of `search_businesses`: combine the per-source
outcomes, deduplicate, cap at `limit`. -/
def searchBusinesses (results : List (Except String (List BusinessLead)))
    (limit : ℕ) : List BusinessLead :=
  (deduplicate_leads (combineResults results)).take limit

theorem combineResults_go (results : List (Except String (List BusinessLead)))
    (acc : List BusinessLead) :
    results.foldl
        (fun acc r => match r with | .ok ls => acc ++ ls | .error _ => acc) acc
      = acc ++ (results.filterMap (fun r => match r with
          | .ok ls => some ls
          | .error _ => none)).flatten := by
  induction results generalizing acc with
  | nil => simp
  | cons r rest ih =>
    cases r with
    | ok ls => simp [List.foldl, ih, List.append_assoc]
    | error e => simp [List.foldl, ih]

/-- C4: a stage's result set is the concatenation of the successful
adapters' records (failures are only logged and omitted), and when every
adapter fails the stage yields the empty result set rather than an error. -/
theorem C4_fanout_resilience :
    (∀ results : List (Except String (List BusinessLead)),
        combineResults results
          = (results.filterMap (fun r => match r with
              | .ok ls => some ls
              | .error _ => none)).flatten)
    ∧ (∀ (results : List (Except String (List BusinessLead))) (limit : ℕ),
        (∀ r ∈ results, ∃ e, r = .error e) →
          searchBusinesses results limit = []) := by
  constructor
  · intro results
    unfold combineResults
    rw [combineResults_go]
    rfl
  · intro results limit h
    unfold searchBusinesses
    have hnil : combineResults results = [] := by
      unfold combineResults
      rw [combineResults_go]
      have : results.filterMap (fun r => match r with
          | .ok ls => some ls
          | .error _ => none) = [] := by
        rw [List.filterMap_eq_nil_iff]
        intro r hr
        rcases h r hr with ⟨e, he⟩
        rw [he]
      rw [this]
      rfl
    rw [hnil]
    show List.take limit ([] : List BusinessLead) = []
    exact List.take_nil

/-- Witness for C4: two failing adapters and limit 7 produce the empty
stage result. -/
theorem C4_fanout_resilience_witness :
    (∀ r ∈ [(Except.error "adapter down" : Except String (List BusinessLead)),
        Except.error "timeout"], ∃ e, r = .error e)
    ∧ searchBusinesses
        [(Except.error "adapter down" : Except String (List BusinessLead)),
          Except.error "timeout"] 7 = [] := by
  have h : ∀ r ∈ [(Except.error "adapter down" : Except String (List BusinessLead)),
      Except.error "timeout"], ∃ e, r = .error e := by
    intro r hr
    rcases List.mem_cons.mp hr with h' | h'
    · exact ⟨"adapter down", h'⟩
    · rcases List.mem_cons.mp h' with h'' | h''
      · exact ⟨"timeout", h''⟩
      · cases h''
  exact ⟨h, C4_fanout_resilience.2 _ 7 h⟩

/-- Embedding of each simulated per-source search loop
(`for i in range(min(limit, cap))`): it emits `min limit cap` leads, with
the randomized content of the i-th lead abstracted as a generator
function. -/
def simulatedLeads (gen : ℕ → BusinessLead) (limit cap : ℕ) : List BusinessLead :=
  (List.range (min limit cap)).map gen

/-- Embedding of `search_businesses` with the sub-limits it passes to its
four sources (`limit // 2`, `limit // 3`, `limit // 4`, `limit // 5`) and
the per-source caps (5, 3, 2, 2). -/
def searchBusinessesSim (g1 g2 g3 g4 : ℕ → BusinessLead) (limit : ℕ) :
    List BusinessLead :=
  searchBusinesses
    [Except.ok (simulatedLeads g1 (limit / 2) 5),
      Except.ok (simulatedLeads g2 (limit / 3) 3),
      Except.ok (simulatedLeads g3 (limit / 4) 2),
      Except.ok (simulatedLeads g4 (limit / 5) 2)] limit

/-- Embedding of the discovery step of `run_campaign` (src/main.py): an
empty search result aborts the campaign with "no results" (`None`). -/
def runCampaignDiscovery (g1 g2 g3 g4 : ℕ → BusinessLead) (limit : ℕ) :
    Option (List BusinessLead) :=
  let results := searchBusinessesSim g1 g2 g3 g4 limit
  if results.isEmpty then none else some results

/-- C10: with limit 1 every per-source sub-limit (`1 // 2` … `1 // 5`) is
0, so all four sources emit nothing, the search returns the empty list, and
the campaign terminates with "no results" even though limit 1 is a valid
query. -/
theorem C10_limit_one_no_results (g1 g2 g3 g4 : ℕ → BusinessLead) :
    searchBusinessesSim g1 g2 g3 g4 1 = []
    ∧ runCampaignDiscovery g1 g2 g3 g4 1 = none :=
  ⟨rfl, rfl⟩

/-- Embedding of the `Contact` dataclass
(src/extractors/contact_extractor.py); the extraction timestamp and raw
payload are omitted. -/
structure Contact where
  name : String
  title : Option String := none
  email : Option String := none
  phone : Option String := none
  linkedin_url : Option String := none
  confidence_score : ℚ := 0
  decision_maker_score : ℚ := 0
  source : String := ""
deriving Repr

/-- Decision-maker title vocabulary (DECISION_MAKER_TITLES in
config/constants.py). -/
def DECISION_MAKER_TITLES : List String :=
  ["CEO", "Chief Executive Officer", "President", "Owner", "Founder",
    "Managing Director", "General Manager", "VP", "Vice President",
    "Director", "Manager", "Principal", "Partner", "Head of"]

/-- Boolean prefix test on character lists (kernel-evaluable). -/
def isPrefixB : List Char → List Char → Bool
  | [], _ => true
  | _ :: _, [] => false
  | a :: as, b :: bs => a == b && isPrefixB as bs

/-- Boolean contiguous-sublist test on character lists. -/
def containsList (needle : List Char) : List Char → Bool
  | [] => needle.isEmpty
  | c :: rest => isPrefixB needle (c :: rest) || containsList needle rest

/-- Python's substring operator `needle in hay`. -/
def containsSub (hay needle : String) : Bool := containsList needle.data hay.data

/-- Python truthiness of an optional string: `None` and the empty string
are falsy. -/
def truthy (o : Option String) : Bool :=
  match o with
  | none => false
  | some s => !(s == "")

/-- Title-based part of `_score_decision_makers`: +0.4 when some
decision-maker title occurs in the lowercased title (the loop breaks at the
first hit, so the weight is added once), +0.2 for a management keyword,
+0.1 for a seniority keyword. -/
def titleScore (c : Contact) : ℚ :=
  if truthy c.title then
    (if DECISION_MAKER_TITLES.any
          (fun dm => containsSub (lowerStr (c.title.getD "")) (lowerStr dm))
      then (0.4 : ℚ) else 0)
    + (if ["manager", "director", "head"].any
          (fun w => containsSub (lowerStr (c.title.getD "")) w)
      then (0.2 : ℚ) else 0)
    + (if ["senior", "lead", "principal"].any
          (fun w => containsSub (lowerStr (c.title.getD "")) w)
      then (0.1 : ℚ) else 0)
  else 0

/-- Source-based part of `_score_decision_makers`: the `source_scores`
dict lookup with default 0. -/
def sourceScore (source : String) : ℚ :=
  if source = "linkedin" then 0.3
  else if source = "website" then 0.2
  else if source = "news_article" then 0.2
  else if source = "better_business_bureau" then 0.1
  else 0

/-- Completeness part of `_score_decision_makers`: +0.1 for an email,
+0.05 for a phone, +0.1 for a LinkedIn URL. -/
def completenessScore (c : Contact) : ℚ :=
  (if truthy c.email then (0.1 : ℚ) else 0)
  + (if truthy c.phone then (0.05 : ℚ) else 0)
  + (if truthy c.linkedin_url then (0.1 : ℚ) else 0)

/-- Per-contact decision-maker score of `_score_decision_makers`: the sum
of the three parts, clamped at 1 (`min(score, 1.0)`). -/
def decisionMakerScore (c : Contact) : ℚ :=
  min (titleScore c + sourceScore c.source + completenessScore c) 1

/-- A contact with its `decision_maker_score` field written back. -/
def scoreContact (c : Contact) : Contact :=
  { c with decision_maker_score := decisionMakerScore c }

/-- Default decision-maker threshold from `ContactExtractor.__init__`. -/
def decision_maker_threshold : ℚ := 0.6

/-- Stable descending insertion by `decision_maker_score`. -/
def insertByScoreDesc (c : Contact) : List Contact → List Contact
  | [] => [c]
  | d :: ds =>
    if d.decision_maker_score ≤ c.decision_maker_score then c :: d :: ds
    else d :: insertByScoreDesc c ds

/-- Python's stable `list.sort(key=..., reverse=True)` on the score. -/
def sortByScoreDesc (cs : List Contact) : List Contact :=
  cs.foldr insertByScoreDesc []

/-- Embedding of `ContactExtractionResult` (the fields scoring touches). -/
structure ContactExtractionResult where
  business_name : String
  business_id : String
  all_contacts : List Contact := []
  decision_makers : List Contact := []
  extraction_score : ℚ := 0
  sources_used : List String := []
deriving Repr

/-- Embedding of `ContactExtractor._score_decision_makers`: write every
contact's score, collect those at or above the threshold, sort them
descending by score. -/
def score_decision_makers (r : ContactExtractionResult) : ContactExtractionResult :=
  let scored := r.all_contacts.map scoreContact
  { r with
    all_contacts := scored,
    decision_makers := sortByScoreDesc
      (scored.filter (fun c => decision_maker_threshold ≤ c.decision_maker_score)) }

theorem mem_insertByScoreDesc (x c : Contact) (l : List Contact) :
    x ∈ insertByScoreDesc c l ↔ x = c ∨ x ∈ l := by
  induction l with
  | nil => simp [insertByScoreDesc]
  | cons d ds ih =>
    simp only [insertByScoreDesc]
    split
    · simp [List.mem_cons]
    · simp [List.mem_cons, ih]
      tauto

theorem mem_sortByScoreDesc (x : Contact) (cs : List Contact) :
    x ∈ sortByScoreDesc cs ↔ x ∈ cs := by
  induction cs with
  | nil => simp [sortByScoreDesc]
  | cons c cs ih =>
    simp only [sortByScoreDesc, List.foldr] at *
    rw [mem_insertByScoreDesc]
    simp [List.mem_cons, ih]

theorem sourceScore_le (s : String) : sourceScore s ≤ 0.3 := by
  unfold sourceScore
  split_ifs <;> norm_num

theorem completenessScore_nonneg (c : Contact) : 0 ≤ completenessScore c := by
  unfold completenessScore
  split_ifs <;> norm_num

theorem titleScore_ceo (c : Contact) (ht : c.title = some "CEO") :
    titleScore c = 0.4 := by
  have h1 : (DECISION_MAKER_TITLES.any
      (fun dm => containsSub (lowerStr "CEO") (lowerStr dm))) = true := by decide
  have h2 : (["manager", "director", "head"].any
      (fun w => containsSub (lowerStr "CEO") w)) = false := by decide
  have h3 : (["senior", "lead", "principal"].any
      (fun w => containsSub (lowerStr "CEO") w)) = false := by decide
  have h4 : truthy (some "CEO") = true := by decide
  rw [titleScore, ht]
  simp only [Option.getD_some, h1, h2, h3, h4, if_true, if_false]
  norm_num

theorem decisionMakerScore_ceo_email (c : Contact)
    (ht : c.title = some "CEO") (he : truthy c.email = true)
    (hs : c.source = "linkedin" ∨ c.source = "website" ∨ c.source = "news_article"
      ∨ c.source = "better_business_bureau") :
    decision_maker_threshold ≤ decisionMakerScore c := by
  have htitle := titleScore_ceo c ht
  have hsrc : (0.1 : ℚ) ≤ sourceScore c.source := by
    rcases hs with h | h | h | h
    · rw [h, sourceScore, if_pos rfl]; norm_num
    · rw [h, sourceScore, if_neg (by decide), if_pos rfl]; norm_num
    · rw [h, sourceScore, if_neg (by decide), if_neg (by decide), if_pos rfl]; norm_num
    · rw [h, sourceScore, if_neg (by decide), if_neg (by decide), if_neg (by decide),
        if_pos rfl]
  have hcomp : (0.1 : ℚ) ≤ completenessScore c := by
    rw [completenessScore, he]
    simp only [eq_self_iff_true, if_true]
    have h1 : (0 : ℚ) ≤ if truthy c.phone then (0.05 : ℚ) else 0 := by
      split_ifs <;> norm_num
    have h2 : (0 : ℚ) ≤ if truthy c.linkedin_url then (0.1 : ℚ) else 0 := by
      split_ifs <;> norm_num
    linarith
  rw [decisionMakerScore, decision_maker_threshold]
  exact le_min (by linarith) (by norm_num)

theorem decisionMakerScore_bare (c : Contact)
    (ht : c.title = none) (he : c.email = none) (hp : c.phone = none)
    (hl : c.linkedin_url = none) :
    decisionMakerScore c < decision_maker_threshold := by
  have hts : titleScore c = 0 := by
    rw [titleScore, ht]
    rfl
  have hcs : completenessScore c = 0 := by
    rw [completenessScore, he, hp, hl]
    norm_num [truthy]
  have hsrc := sourceScore_le c.source
  have hmin : decisionMakerScore c ≤ titleScore c + sourceScore c.source + completenessScore c :=
    min_le_left _ _
  rw [hts, hcs] at hmin
  rw [decision_maker_threshold]
  calc decisionMakerScore c ≤ 0 + sourceScore c.source + 0 := hmin
    _ ≤ 0 + (0.3 : ℚ) + 0 := by linarith
    _ < 0.6 := by norm_num

/-- Contact of the claim's boundary case: title "CEO," populated email,
and the dataclass-default empty source string. -/
def ceoNoSource : Contact :=
  { name := "Pat Example", title := some "CEO", email := some "info@acme.com" }

/-- Extraction result holding only `ceoNoSource`. -/
def ceoNoSourceResult : ContactExtractionResult :=
  { business_name := "Acme", business_id := "google_places_1001",
    all_contacts := [ceoNoSource] }

/-- C5 counterexample: a contact with title "CEO" and a populated email but
the dataclass-default empty source scores 0.4 + 0 + 0.1 = 0.5 < 0.6, so —
contrary to the claim — it is not classified as a decision maker. -/
theorem C5_counterexample :
    decisionMakerScore ceoNoSource = 0.5
    ∧ decisionMakerScore ceoNoSource < decision_maker_threshold
    ∧ (score_decision_makers ceoNoSourceResult).decision_makers = [] := by
  have hscore : decisionMakerScore ceoNoSource = 0.5 := by
    have htitle : titleScore ceoNoSource = 0.4 := titleScore_ceo _ rfl
    have hcomp : completenessScore ceoNoSource = 0.1 := by
      have h1 : truthy ceoNoSource.email = true := by decide
      have h2 : truthy ceoNoSource.phone = false := by decide
      have h3 : truthy ceoNoSource.linkedin_url = false := by decide
      rw [completenessScore, h1, h2, h3]
      norm_num
    have hsrc : sourceScore ceoNoSource.source = 0 := by
      show sourceScore "" = 0
      rw [sourceScore, if_neg (by decide), if_neg (by decide), if_neg (by decide),
        if_neg (by decide)]
    rw [decisionMakerScore, htitle, hcomp, hsrc]
    norm_num
  have hlt : decisionMakerScore ceoNoSource < decision_maker_threshold := by
    rw [hscore, decision_maker_threshold]
    norm_num
  refine ⟨hscore, hlt, ?_⟩
  have hfilter : List.filter
      (fun c => decide (decision_maker_threshold ≤ c.decision_maker_score))
      [scoreContact ceoNoSource] = [] := by
    rw [List.filter_eq_nil_iff]
    intro a ha
    rw [List.mem_singleton] at ha
    subst ha
    simp only [scoreContact, decide_eq_true_eq]
    exact not_le.mpr hlt
  simp only [score_decision_makers, ceoNoSourceResult, List.map]
  rw [hfilter]
  rfl

/-- C5 amended: under the default threshold 0.6, every contact whose title
is "CEO," whose email is populated, and whose source is one of the four
recognized extraction sources (linkedin, website, news_article,
better_business_bureau) scores at least 0.6 and appears among the decision
makers; and every contact with no title, no email, no phone and no
LinkedIn URL scores below 0.6 and is never classified, regardless of its
source. -/
theorem C5_amended_decision_maker_classification :
    (∀ (r : ContactExtractionResult) (c : Contact),
        c ∈ r.all_contacts → c.title = some "CEO" → truthy c.email = true →
        (c.source = "linkedin" ∨ c.source = "website" ∨ c.source = "news_article"
          ∨ c.source = "better_business_bureau") →
        decision_maker_threshold ≤ (scoreContact c).decision_maker_score
          ∧ scoreContact c ∈ (score_decision_makers r).decision_makers)
    ∧ (∀ (r : ContactExtractionResult) (c : Contact),
        c.title = none → c.email = none → c.phone = none → c.linkedin_url = none →
        (scoreContact c).decision_maker_score < decision_maker_threshold
          ∧ scoreContact c ∉ (score_decision_makers r).decision_makers) := by
  constructor
  · intro r c hc ht he hs
    have hscore := decisionMakerScore_ceo_email c ht he hs
    have hfield : (scoreContact c).decision_maker_score = decisionMakerScore c := rfl
    refine ⟨by rw [hfield]; exact hscore, ?_⟩
    simp only [score_decision_makers]
    rw [mem_sortByScoreDesc, List.mem_filter]
    refine ⟨List.mem_map_of_mem _ hc, ?_⟩
    rw [hfield]
    exact decide_eq_true hscore
  · intro r c ht he hp hl
    have hscore := decisionMakerScore_bare c ht he hp hl
    have hfield : (scoreContact c).decision_maker_score = decisionMakerScore c := rfl
    refine ⟨by rw [hfield]; exact hscore, ?_⟩
    intro hmem
    simp only [score_decision_makers] at hmem
    rw [mem_sortByScoreDesc, List.mem_filter] at hmem
    have hge := of_decide_eq_true hmem.2
    rw [hfield] at hge
    exact absurd hscore (not_lt.mpr hge)

/-- LinkedIn-sourced CEO contact with a populated email. -/
def ceoLinkedIn : Contact :=
  { name := "Jen Doe", title := some "CEO", email := some "info@acme.com",
    source := "linkedin" }

/-- Extraction result holding only `ceoLinkedIn`. -/
def ceoLinkedInResult : ContactExtractionResult :=
  { business_name := "Acme", business_id := "g1", all_contacts := [ceoLinkedIn] }

/-- Contact with no title and no contact fields, from a scored source. -/
def blankContact : Contact := { name := "Blank", source := "news_article" }

/-- Extraction result with no contacts at all. -/
def noContactsResult : ContactExtractionResult :=
  { business_name := "Acme", business_id := "g1", all_contacts := [] }

/-- Witness for C5 amended: a LinkedIn-sourced CEO contact with an email is
classified; a contact with no title and no contact fields is not. -/
theorem C5_amended_decision_maker_classification_witness :
    ceoLinkedIn ∈ ceoLinkedInResult.all_contacts
    ∧ scoreContact ceoLinkedIn
        ∈ (score_decision_makers ceoLinkedInResult).decision_makers
    ∧ scoreContact blankContact
        ∉ (score_decision_makers noContactsResult).decision_makers :=
  ⟨List.mem_singleton.mpr rfl,
   (C5_amended_decision_maker_classification.1 ceoLinkedInResult ceoLinkedIn
      (List.mem_singleton.mpr rfl) rfl (by decide) (Or.inl rfl)).2,
   (C5_amended_decision_maker_classification.2 noContactsResult blankContact
      rfl rfl rfl rfl).2⟩

/-- Embedding of the `Contact` dataclass of src/profiles/profile_builder.py
(a distinct type from the extractor's `Contact`). -/
structure BuilderContact where
  name : Option String := none
  email : Option String := none
  phone : Option String := none
  title : Option String := none
  department : Option String := none
  source : String := "unknown"
  confidence_score : ℚ := 0.5
  is_decision_maker : Bool := false
deriving Repr

/-- Fields of `BusinessProfile` (src/profiles/profile_builder.py) that the
orchestrator's per-entity loops read and write. -/
structure CampaignProfile where
  name : String
  contacts : List BuilderContact := []
deriving Repr

/-- Embedding of the Step-2 loop of `run_campaign` (src/main.py): each
search result's profile build either succeeds (the profile is appended) or
raises (the error is logged and the loop continues) — a failed entity is
then absent from `profiles`. -/
def buildProfiles (outcomes : List (Except String CampaignProfile)) :
    List CampaignProfile :=
  outcomes.foldl
    (fun acc r => match r with | .ok p => acc ++ [p] | .error _ => acc) []

/-- Embedding of the Step-3 loop body of `run_campaign`: the contact
pipeline for one profile either yields the final contact list (stored on
the profile) or raises (logged, `continue`); either way the profile stays
in the campaign, keeping its previous contacts on failure. -/
def extractContactsStep (p : CampaignProfile)
    (outcome : Except String (List BuilderContact)) : CampaignProfile :=
  match outcome with
  | .ok cs => { p with contacts := cs }
  | .error _ => p

/-- Step 3 of `run_campaign` over all profiles, pairing each profile with
its contact-pipeline outcome. -/
def contactsStage
    (ps : List (CampaignProfile × Except String (List BuilderContact))) :
    List CampaignProfile :=
  ps.map (fun pr => extractContactsStep pr.1 pr.2)

/-- Embedding of `ContactExtractor.extract_contacts`
(src/extractors/contact_extractor.py): gather per-profile extraction
outcomes and keep only the successful results, logging the rest. -/
def extractContactsGather
    (outcomes : List (Except String ContactExtractionResult)) :
    List ContactExtractionResult :=
  outcomes.foldl
    (fun acc r => match r with | .ok res => acc ++ [res] | .error _ => acc) []

theorem buildProfiles_go (outcomes : List (Except String CampaignProfile))
    (acc : List CampaignProfile) :
    outcomes.foldl
        (fun acc r => match r with | .ok p => acc ++ [p] | .error _ => acc) acc
      = acc ++ outcomes.filterMap (fun r => match r with
          | .ok p => some p
          | .error _ => none) := by
  induction outcomes generalizing acc with
  | nil => simp
  | cons r rest ih =>
    cases r with
    | ok p => simp [List.foldl, ih, List.append_assoc]
    | error e => simp [List.foldl, ih]

theorem extractGather_go (outcomes : List (Except String ContactExtractionResult))
    (acc : List ContactExtractionResult) :
    outcomes.foldl
        (fun acc r => match r with | .ok res => acc ++ [res] | .error _ => acc) acc
      = acc ++ outcomes.filterMap (fun r => match r with
          | .ok res => some res
          | .error _ => none) := by
  induction outcomes generalizing acc with
  | nil => simp
  | cons r rest ih =>
    cases r with
    | ok res => simp [List.foldl, ih, List.append_assoc]
    | error e => simp [List.foldl, ih]

/-- C6 counterexample: of two discovered entities, the second's profile
build raises; the orchestrator's Step-2 loop drops it, so only one entity
remains in the campaign — the failing entity is not carried forward,
contrary to the claim. -/
theorem C6_counterexample :
    buildProfiles [Except.ok (CampaignProfile.mk "Alpha" []),
        Except.error "enrichment failed"]
      = [CampaignProfile.mk "Alpha" []]
    ∧ (buildProfiles [Except.ok (CampaignProfile.mk "Alpha" []),
        Except.error "enrichment failed"]).length = 1 :=
  ⟨rfl, rfl⟩

/-- C6 amended: per-entity errors are caught and logged at entity
granularity in each loop, but with different consequences.  An error while
extracting an entity's contacts leaves the entity in the campaign with its
previous data; an error while building/enriching an entity's profile drops
that entity from the rest of the campaign, and a failed per-entity
extraction is likewise omitted from `extract_contacts`' result list; zero
entities discovered aborts the campaign with "no results" (`None`). -/
theorem C6_amended_per_entity_errors :
    (∀ outcomes : List (Except String CampaignProfile),
        buildProfiles outcomes = outcomes.filterMap (fun r => match r with
          | .ok p => some p
          | .error _ => none))
    ∧ (∀ ps : List (CampaignProfile × Except String (List BuilderContact)),
        (contactsStage ps).length = ps.length
        ∧ ∀ (p : CampaignProfile) (e : String),
            (p, Except.error e) ∈ ps → p ∈ contactsStage ps)
    ∧ (∀ outcomes : List (Except String ContactExtractionResult),
        extractContactsGather outcomes
          = outcomes.filterMap (fun r => match r with
              | .ok res => some res
              | .error _ => none))
    ∧ (∀ (g1 g2 g3 g4 : ℕ → BusinessLead) (limit : ℕ),
        searchBusinessesSim g1 g2 g3 g4 limit = [] →
          runCampaignDiscovery g1 g2 g3 g4 limit = none) := by
  refine ⟨?_, ?_, ?_, ?_⟩
  · intro outcomes
    unfold buildProfiles
    rw [buildProfiles_go]
    rfl
  · intro ps
    constructor
    · unfold contactsStage
      exact List.length_map _ _
    · intro p e hmem
      exact List.mem_map_of_mem (fun pr => extractContactsStep pr.1 pr.2) hmem
  · intro outcomes
    unfold extractContactsGather
    rw [extractGather_go]
    rfl
  · intro g1 g2 g3 g4 limit h
    unfold runCampaignDiscovery
    rw [h]
    rfl

/-- A fixed lead used to instantiate the abstract source generators. -/
def constLead : BusinessLead :=
  { name := "Const Co", business_id := "const_0001", source := "google_places",
    industry := "services", location := "Test City" }

/-- Witness for C6 amended: a profile whose contact pipeline raised stays
in the campaign with its previous (empty) contact list, and a discovery
run that finds nothing (limit 1) aborts the campaign with `None`. -/
theorem C6_amended_per_entity_errors_witness :
    ((CampaignProfile.mk "Alpha" [], (Except.error "pipeline failed"
          : Except String (List BuilderContact)))
        ∈ [(CampaignProfile.mk "Alpha" [], (Except.error "pipeline failed"
          : Except String (List BuilderContact)))])
    ∧ CampaignProfile.mk "Alpha" []
        ∈ contactsStage [(CampaignProfile.mk "Alpha" [],
            (Except.error "pipeline failed" : Except String (List BuilderContact)))]
    ∧ searchBusinessesSim (fun _ => constLead) (fun _ => constLead)
        (fun _ => constLead) (fun _ => constLead) 1 = []
    ∧ runCampaignDiscovery (fun _ => constLead) (fun _ => constLead)
        (fun _ => constLead) (fun _ => constLead) 1 = none :=
  ⟨List.mem_singleton.mpr rfl,
   (C6_amended_per_entity_errors.2.1
      [(CampaignProfile.mk "Alpha" [],
        (Except.error "pipeline failed" : Except String (List BuilderContact)))]).2
     (CampaignProfile.mk "Alpha" []) "pipeline failed"
     (List.mem_singleton.mpr rfl),
   rfl,
   C6_amended_per_entity_errors.2.2.2 (fun _ => constLead) (fun _ => constLead)
     (fun _ => constLead) (fun _ => constLead) 1 rfl⟩

end LeadScraper
